import Mathlib

/-!
Verification of the postcard compositing pipeline in `src/main.py`.

The program manipulates PIL RGBA images and numpy pixel arrays.  We embed a
raster image as its size together with a pixel function: `pix x y` is the RGBA
value at column `x`, row `y` (the PIL coordinate convention, origin top-left).
`PIL.Image.paste` and `PIL.Image.crop` accept boxes that reach outside the
destination or source; both clip, and `crop` fills out-of-range pixels of an
RGBA image with zeros.  The embeddings below mirror that by computing box
arithmetic in `ℤ`.
-/

/-- An RGBA pixel, one natural number per 8-bit channel. -/
abbrev Pixel := ℕ × ℕ × ℕ × ℕ

/-- A raster image: dimensions and a pixel function (PIL coordinates,
`pix x y` = column `x`, row `y`).  Only `x < width`, `y < height` is
meaningful; all operations below are compared on that domain. -/
structure RasterImage where
  width : ℕ
  height : ℕ
  pix : ℕ → ℕ → Pixel

/-- Bounded pixel-for-pixel equality of two images: same size and the same
pixels on the whole domain. -/
def imgEq (a b : RasterImage) : Prop :=
  a.width = b.width ∧ a.height = b.height ∧
    ∀ x < a.width, ∀ y < a.height, a.pix x y = b.pix x y

/-- PAD_COLOR = (0, 0, 0, 0) in main.py. -/
def PAD_COLOR : Pixel := (0, 0, 0, 0)

/-- CUT_LINES_COLOR = (255, 0, 0, 255) in main.py. -/
def CUT_LINES_COLOR : Pixel := (255, 0, 0, 255)

/-- DPI = 300 in main.py. -/
def DPI : ℕ := 300

/-- inch_to_pixel in main.py: `int((inches * DPI) / 2) * 2`, an even pixel
count.  Python `int` truncates toward zero; all uses are nonnegative, where
truncation agrees with the floor. -/
def inch_to_pixel (inches : ℚ) : ℕ :=
  (⌊inches * DPI / 2⌋).toNat * 2

/-- BLEED_SIZE = inch_to_pixel(0.10) = 30 in main.py; stated as the literal
value so the pipeline kernel-evaluates, and tied to the formula by
BLEED_SIZE_spec below. -/
def BLEED_SIZE : ℕ := 30

/-- CUT_LINE_LENGTH = inch_to_pixel(1) = 300 in main.py; see
CUT_LINE_LENGTH_spec. -/
def CUT_LINE_LENGTH : ℕ := 300

/-- CUT_LINE_OFFSET = 2 in main.py. -/
def CUT_LINE_OFFSET : ℕ := 2

/-- TARGET_WIDTH = inch_to_pixel(8.5) = 2550 in main.py; see
TARGET_WIDTH_spec. -/
def TARGET_WIDTH : ℕ := 2550

/-- TARGET_HEIGHT = inch_to_pixel(11) = 3300 in main.py; see
TARGET_HEIGHT_spec. -/
def TARGET_HEIGHT : ℕ := 3300

/-- `Image.new('RGBA', (w, h), color)`: a constant image. -/
def newImage (w h : ℕ) (c : Pixel) : RasterImage where
  width := w
  height := h
  pix _ _ := c

/-- `base.paste(img, (px, py))`: the pasted image replaces the pixels of the
region it covers (RGBA paste without a mask copies pixels, no blending); the
box may have negative coordinates or reach past the canvas, in which case PIL
clips it, which the bounds test below reproduces. -/
def paste (base img : RasterImage) (px py : ℤ) : RasterImage where
  width := base.width
  height := base.height
  pix x y :=
    if px ≤ (x : ℤ) ∧ (x : ℤ) < px + img.width ∧
        py ≤ (y : ℤ) ∧ (y : ℤ) < py + img.height then
      img.pix ((x : ℤ) - px).toNat ((y : ℤ) - py).toNat
    else base.pix x y

/-- `img.crop((l, t, r, b))`: result size `(r - l, b - t)`; pixels whose source
coordinate falls outside the source image are zero-filled, which for RGBA is
`(0, 0, 0, 0)`. -/
def crop (img : RasterImage) (l t r b : ℤ) : RasterImage where
  width := (r - l).toNat
  height := (b - t).toNat
  pix x y :=
    if 0 ≤ l + (x : ℤ) ∧ l + (x : ℤ) < img.width ∧
        0 ≤ t + (y : ℤ) ∧ t + (y : ℤ) < img.height then
      img.pix (l + (x : ℤ)).toNat (t + (y : ℤ)).toNat
    else PAD_COLOR

/-- smear(arr, size, 0) in main.py applied to a row `image_array[r, :, :]`
of width `w`: `np.repeat(np.expand_dims(arr, 0), size, 0)` stacks the row
`size` times, giving a `w × size` image whose every row is `row`. -/
def smear_axis0 (row : ℕ → Pixel) (w size : ℕ) : RasterImage where
  width := w
  height := size
  pix x _ := row x

/-- smear(arr, size, 1) in main.py applied to a column `image_array[:, c, :]`
of height `h`: a `size × h` image whose every column is `col`. -/
def smear_axis1 (col : ℕ → Pixel) (h size : ℕ) : RasterImage where
  width := size
  height := h
  pix _ y := col y

/-- single_pixel_smear in main.py: a single pixel smeared to a
`size × size` square. -/
def single_pixel_smear (p : Pixel) (size : ℕ) : RasterImage :=
  newImage size size p

/-- rotate_left in main.py: `image.transpose(Image.ROTATE_90)`, a 90°
counterclockwise rotation.  The source pixel `(sx, sy)` lands at
`(sy, w - 1 - sx)`, so the result reads `pix x y = src (w - 1 - y) x`. -/
def rotate_left (image : RasterImage) : RasterImage where
  width := image.height
  height := image.width
  pix x y := image.pix (image.width - 1 - y) x

/-- rotate_right in main.py: `image.transpose(Image.ROTATE_270)`, a 90°
clockwise rotation: `pix x y = src y (h - 1 - x)`. -/
def rotate_right (image : RasterImage) : RasterImage where
  width := image.height
  height := image.width
  pix x y := image.pix y (image.height - 1 - x)

/-- flip_left_right in main.py: `image.transpose(Image.FLIP_LEFT_RIGHT)`. -/
def flip_left_right (image : RasterImage) : RasterImage where
  width := image.width
  height := image.height
  pix x y := image.pix (image.width - 1 - x) y

/-- flip_top_bottom in main.py: `image.transpose(Image.FLIP_TOP_BOTTOM)`. -/
def flip_top_bottom (image : RasterImage) : RasterImage where
  width := image.width
  height := image.height
  pix x y := image.pix x (image.height - 1 - y)

/-- add_corner_bleed in main.py: smears each corner pixel of `image` to a
`half_bleed × half_bleed` square (with `half_bleed = int(bleed_size / 2)`,
truncating division) and pastes the four squares onto `bled_image` at
`(bleed_size - half_bleed, bleed_size - half_bleed)`,
`(width + bleed_size, bleed_size - half_bleed)`,
`(bleed_size - half_bleed, height + bleed_size)` and
`(width + bleed_size, height + bleed_size)`.  `image_array[0, -1, :]` is numpy
row 0, last column, i.e. the top-right pixel `pix (width - 1) 0`, and so on. -/
def add_corner_bleed (image bled_image : RasterImage) (bleed_size : ℕ) :
    RasterImage :=
  let half_bleed := bleed_size / 2
  let width := image.width
  let height := image.height
  let top_left := single_pixel_smear (image.pix 0 0) half_bleed
  let top_right := single_pixel_smear (image.pix (width - 1) 0) half_bleed
  let bottom_left := single_pixel_smear (image.pix 0 (height - 1)) half_bleed
  let bottom_right :=
    single_pixel_smear (image.pix (width - 1) (height - 1)) half_bleed
  let b1 := paste bled_image top_left ((bleed_size : ℤ) - half_bleed)
    ((bleed_size : ℤ) - half_bleed)
  let b2 := paste b1 top_right ((width : ℤ) + bleed_size)
    ((bleed_size : ℤ) - half_bleed)
  let b3 := paste b2 bottom_left ((bleed_size : ℤ) - half_bleed)
    ((height : ℤ) + bleed_size)
  paste b3 bottom_right ((width : ℤ) + bleed_size) ((height : ℤ) + bleed_size)

/-- add_bleed_smear in main.py: pastes the image at `(bleed_size, bleed_size)`
on a transparent canvas `2·bleed_size` larger in each dimension, smears the
four outermost edge rows/columns of the source outward into the margins
(`image_array[0, :, :]` is the top row, `image_array[:, -1, :]` the last
column), then fills the corners with add_corner_bleed. -/
def add_bleed_smear (image : RasterImage) (bleed_size : ℕ) : RasterImage :=
  let width := image.width
  let height := image.height
  let new_width := width + 2 * bleed_size
  let new_height := height + 2 * bleed_size
  let bled_image :=
    paste (newImage new_width new_height PAD_COLOR) image bleed_size bleed_size
  let top := smear_axis0 (fun x => image.pix x 0) width bleed_size
  let bottom := smear_axis0 (fun x => image.pix x (height - 1)) width bleed_size
  let left := smear_axis1 (fun y => image.pix 0 y) height bleed_size
  let right := smear_axis1 (fun y => image.pix (width - 1) y) height bleed_size
  let s1 := paste bled_image top bleed_size 0
  let s2 := paste s1 bottom bleed_size ((height : ℤ) + bleed_size)
  let s3 := paste s2 left 0 bleed_size
  let s4 := paste s3 right ((width : ℤ) + bleed_size) bleed_size
  add_corner_bleed image s4 bleed_size

/-- add_bleed_flip in main.py: like add_bleed_smear, but each margin is a
mirror-flipped `bleed_size`-deep strip cropped from the corresponding edge of
the source; corners are still filled by add_corner_bleed. -/
def add_bleed_flip (image : RasterImage) (bleed_size : ℕ) : RasterImage :=
  let width := image.width
  let height := image.height
  let new_width := width + 2 * bleed_size
  let new_height := height + 2 * bleed_size
  let bled_image :=
    paste (newImage new_width new_height PAD_COLOR) image bleed_size bleed_size
  let top := flip_top_bottom (crop image 0 0 width bleed_size)
  let bottom :=
    flip_top_bottom (crop image 0 ((height : ℤ) - bleed_size) width height)
  let left := flip_left_right (crop image 0 0 bleed_size height)
  let right :=
    flip_left_right (crop image ((width : ℤ) - bleed_size) 0 width height)
  let s1 := paste bled_image top bleed_size 0
  let s2 := paste s1 bottom bleed_size ((height : ℤ) + bleed_size)
  let s3 := paste s2 left 0 bleed_size
  let s4 := paste s3 right ((width : ℤ) + bleed_size) bleed_size
  add_corner_bleed image s4 bleed_size

/-- add_cut_lines in main.py: enlarges the bled image by `line_length` on
every side, pastes it at `(line_length, line_length)`, then pastes eight
opaque-red marks — four `2 × line_length` verticals and four
`line_length × 2` horizontals — at coordinates given relative to the original
(pre-bleed) image's top-left corner through
`absolute(x, y) = (x + line_length + bleed_size, y + line_length + bleed_size)`,
with `orig_width = image.width - 2·bleed_size` and
`orig_height = image.height - 2·bleed_size` computed as Python ints (possibly
negative, hence `ℤ`). -/
def add_cut_lines (image : RasterImage) (bleed_size line_length : ℕ) :
    RasterImage :=
  let absX : ℤ → ℤ := fun x => x + line_length + bleed_size
  let absY : ℤ → ℤ := fun y => y + line_length + bleed_size
  let orig_width : ℤ := (image.width : ℤ) - 2 * bleed_size
  let orig_height : ℤ := (image.height : ℤ) - 2 * bleed_size
  let vertical_cut_line := newImage 2 line_length CUT_LINES_COLOR
  let horizontal_cut_line := newImage line_length 2 CUT_LINES_COLOR
  let result0 := newImage (image.width + 2 * line_length)
    (image.height + 2 * line_length) PAD_COLOR
  let r1 := paste result0 image line_length line_length
  let r2 := paste r1 vertical_cut_line (absX ((CUT_LINE_OFFSET : ℤ) - 1))
    (absY (-((bleed_size : ℤ) + line_length)))
  let r3 := paste r2 vertical_cut_line
    (absX (orig_width - 1 - CUT_LINE_OFFSET))
    (absY (-((bleed_size : ℤ) + line_length)))
  let r4 := paste r3 vertical_cut_line (absX ((CUT_LINE_OFFSET : ℤ) - 1))
    (absY (orig_height + bleed_size))
  let r5 := paste r4 vertical_cut_line
    (absX (orig_width - 1 - CUT_LINE_OFFSET))
    (absY (orig_height + bleed_size))
  let r6 := paste r5 horizontal_cut_line
    (absX (-((bleed_size : ℤ) + line_length)))
    (absY ((CUT_LINE_OFFSET : ℤ) - 1))
  let r7 := paste r6 horizontal_cut_line
    (absX (-((bleed_size : ℤ) + line_length)))
    (absY (orig_height - 1 - CUT_LINE_OFFSET))
  let r8 := paste r7 horizontal_cut_line (absX (orig_width + bleed_size))
    (absY ((CUT_LINE_OFFSET : ℤ) - 1))
  paste r8 horizontal_cut_line (absX (orig_width + bleed_size))
    (absY (orig_height - 1 - CUT_LINE_OFFSET))

/-- add_bleed = add_bleed_flip: the module-level binding at the bottom of
main.py, used by bleed_stack_cut. -/
def add_bleed : RasterImage → ℕ → RasterImage := add_bleed_flip

/-- bleed_stack_cut in main.py: bleeds, rotates and cut-lines each image,
crops `CUT_LINE_LENGTH` rows off the top of the second (its top cut-line
margin), then pastes the first at `(0, 0)` and the cropped second at
`(0, image_1.height - CUT_LINE_LENGTH)` on a canvas of width
`max(width_1, width_2)` and height
`image_1.height + cropped_image_2.height - CUT_LINE_LENGTH`. -/
def bleed_stack_cut (image_1 image_2 : RasterImage) (bleed_size : ℕ)
    (rotator : RasterImage → RasterImage) : RasterImage :=
  let transform_image := fun (image : RasterImage) =>
    add_cut_lines (rotator (add_bleed image bleed_size)) bleed_size
      CUT_LINE_LENGTH
  let i1 := transform_image image_1
  let i2t := transform_image image_2
  let i2 := crop i2t 0 (CUT_LINE_LENGTH : ℤ) i2t.width i2t.height
  let new_width := max i1.width i2.width
  let new_height := i1.height + i2.height - 1 * CUT_LINE_LENGTH
  let result := newImage new_width new_height PAD_COLOR
  let r1 := paste result i1 0 0
  paste r1 i2 0 ((i1.height : ℤ) - 1 * CUT_LINE_LENGTH)

/-- The crop in process_images (main.py lines 232-234, the SheetCropper):
`crop_topleft_coord = (int((W - target_w)/2), int((H - target_h)/2))` with
Python `int` truncating toward zero (`Int.tdiv`), then
`image.crop((tlx, tly, tlx + target_w, tly + target_h))`. -/
def crop_to_target (sheet : RasterImage) (target_width target_height : ℕ) :
    RasterImage :=
  let crop_topleft_x : ℤ := Int.tdiv ((sheet.width : ℤ) - target_width) 2
  let crop_topleft_y : ℤ := Int.tdiv ((sheet.height : ℤ) - target_height) 2
  crop sheet crop_topleft_x crop_topleft_y (crop_topleft_x + target_width)
    (crop_topleft_y + target_height)

/-- The eight cut-mark rectangles of add_cut_lines on a bled image of size
`(W, H)` with bleed `b` and cut-line length `L`, in absolute canvas
coordinates: a relative coordinate `(x, y)` maps to
`(x + L + b, y + L + b)`; vertical marks are 2 px wide and `L` px tall at
relative horizontal offsets `CUT_LINE_OFFSET - 1` and
`origW - 1 - CUT_LINE_OFFSET` (with `origW = W - 2b`, `origH = H - 2b`),
straddling the top and bottom of the canvas; horizontal marks are `L` px wide
and 2 px tall at the symmetric vertical offsets on the left and right. -/
def in_cut_marks (W H b L X Y : ℕ) : Prop :=
  ((L : ℤ) + b + ((CUT_LINE_OFFSET : ℤ) - 1) ≤ (X : ℤ) ∧
    (X : ℤ) < (L : ℤ) + b + ((CUT_LINE_OFFSET : ℤ) - 1) + 2 ∧
    0 ≤ (Y : ℤ) ∧ (Y : ℤ) < L) ∨
  ((L : ℤ) + b + (((W : ℤ) - 2 * b) - 1 - CUT_LINE_OFFSET) ≤ (X : ℤ) ∧
    (X : ℤ) < (L : ℤ) + b + (((W : ℤ) - 2 * b) - 1 - CUT_LINE_OFFSET) + 2 ∧
    0 ≤ (Y : ℤ) ∧ (Y : ℤ) < L) ∨
  ((L : ℤ) + b + ((CUT_LINE_OFFSET : ℤ) - 1) ≤ (X : ℤ) ∧
    (X : ℤ) < (L : ℤ) + b + ((CUT_LINE_OFFSET : ℤ) - 1) + 2 ∧
    (L : ℤ) + b + (((H : ℤ) - 2 * b) + b) ≤ (Y : ℤ) ∧
    (Y : ℤ) < (L : ℤ) + b + (((H : ℤ) - 2 * b) + b) + L) ∨
  ((L : ℤ) + b + (((W : ℤ) - 2 * b) - 1 - CUT_LINE_OFFSET) ≤ (X : ℤ) ∧
    (X : ℤ) < (L : ℤ) + b + (((W : ℤ) - 2 * b) - 1 - CUT_LINE_OFFSET) + 2 ∧
    (L : ℤ) + b + (((H : ℤ) - 2 * b) + b) ≤ (Y : ℤ) ∧
    (Y : ℤ) < (L : ℤ) + b + (((H : ℤ) - 2 * b) + b) + L) ∨
  (0 ≤ (X : ℤ) ∧ (X : ℤ) < L ∧
    (L : ℤ) + b + ((CUT_LINE_OFFSET : ℤ) - 1) ≤ (Y : ℤ) ∧
    (Y : ℤ) < (L : ℤ) + b + ((CUT_LINE_OFFSET : ℤ) - 1) + 2) ∨
  (0 ≤ (X : ℤ) ∧ (X : ℤ) < L ∧
    (L : ℤ) + b + (((H : ℤ) - 2 * b) - 1 - CUT_LINE_OFFSET) ≤ (Y : ℤ) ∧
    (Y : ℤ) < (L : ℤ) + b + (((H : ℤ) - 2 * b) - 1 - CUT_LINE_OFFSET) + 2) ∨
  ((L : ℤ) + b + (((W : ℤ) - 2 * b) + b) ≤ (X : ℤ) ∧
    (X : ℤ) < (L : ℤ) + b + (((W : ℤ) - 2 * b) + b) + L ∧
    (L : ℤ) + b + ((CUT_LINE_OFFSET : ℤ) - 1) ≤ (Y : ℤ) ∧
    (Y : ℤ) < (L : ℤ) + b + ((CUT_LINE_OFFSET : ℤ) - 1) + 2) ∨
  ((L : ℤ) + b + (((W : ℤ) - 2 * b) + b) ≤ (X : ℤ) ∧
    (X : ℤ) < (L : ℤ) + b + (((W : ℤ) - 2 * b) + b) + L ∧
    (L : ℤ) + b + (((H : ℤ) - 2 * b) - 1 - CUT_LINE_OFFSET) ≤ (Y : ℤ) ∧
    (Y : ℤ) < (L : ℤ) + b + (((H : ℤ) - 2 * b) - 1 - CUT_LINE_OFFSET) + 2)

instance (W H b L X Y : ℕ) : Decidable (in_cut_marks W H b L X Y) := by
  unfold in_cut_marks
  infer_instance

/-- A 2×2 test sheet, every pixel (9, 9, 9, 9). -/
def sheet2 : RasterImage := newImage 2 2 (9, 9, 9, 9)

/-- A 1×1 test image with pixel (1, 2, 3, 4). -/
def img1 : RasterImage := newImage 1 1 (1, 2, 3, 4)

/-- A 4×4 test image, every pixel (5, 6, 7, 8). -/
def img4 : RasterImage := newImage 4 4 (5, 6, 7, 8)

/-- A 3×2 test image with pixel (x, y, x + y, 7) at (x, y): no two pixels
are equal, so coordinate mix-ups are visible. -/
def testImg : RasterImage where
  width := 3
  height := 2
  pix x y := (x, y, x + y, 7)

/-- Index congruence for pixel lookups. -/
theorem pix_congr (img : RasterImage) {a b x y : ℕ} (hx : a = x) (hy : b = y) :
    img.pix a b = img.pix x y := by
  rw [hx, hy]

theorem paste_width (base img : RasterImage) (px py : ℤ) :
    (paste base img px py).width = base.width := rfl

theorem paste_height (base img : RasterImage) (px py : ℤ) :
    (paste base img px py).height = base.height := rfl

theorem paste_pix (base img : RasterImage) (px py : ℤ) (x y : ℕ) :
    (paste base img px py).pix x y =
      if px ≤ (x : ℤ) ∧ (x : ℤ) < px + img.width ∧
          py ≤ (y : ℤ) ∧ (y : ℤ) < py + img.height then
        img.pix ((x : ℤ) - px).toNat ((y : ℤ) - py).toNat
      else base.pix x y := rfl

theorem newImage_width (w h : ℕ) (c : Pixel) : (newImage w h c).width = w := rfl

theorem newImage_height (w h : ℕ) (c : Pixel) :
    (newImage w h c).height = h := rfl

theorem newImage_pix (w h : ℕ) (c : Pixel) (x y : ℕ) :
    (newImage w h c).pix x y = c := rfl

theorem crop_width (img : RasterImage) (l t r b : ℤ) :
    (crop img l t r b).width = (r - l).toNat := rfl

theorem crop_height (img : RasterImage) (l t r b : ℤ) :
    (crop img l t r b).height = (b - t).toNat := rfl

theorem crop_pix (img : RasterImage) (l t r b : ℤ) (x y : ℕ) :
    (crop img l t r b).pix x y =
      if 0 ≤ l + (x : ℤ) ∧ l + (x : ℤ) < img.width ∧
          0 ≤ t + (y : ℤ) ∧ t + (y : ℤ) < img.height then
        img.pix (l + (x : ℤ)).toNat (t + (y : ℤ)).toNat
      else PAD_COLOR := rfl

theorem smear_axis0_width (row : ℕ → Pixel) (w s : ℕ) :
    (smear_axis0 row w s).width = w := rfl

theorem smear_axis0_height (row : ℕ → Pixel) (w s : ℕ) :
    (smear_axis0 row w s).height = s := rfl

theorem smear_axis0_pix (row : ℕ → Pixel) (w s x y : ℕ) :
    (smear_axis0 row w s).pix x y = row x := rfl

theorem smear_axis1_width (col : ℕ → Pixel) (h s : ℕ) :
    (smear_axis1 col h s).width = s := rfl

theorem smear_axis1_height (col : ℕ → Pixel) (h s : ℕ) :
    (smear_axis1 col h s).height = h := rfl

theorem smear_axis1_pix (col : ℕ → Pixel) (h s x y : ℕ) :
    (smear_axis1 col h s).pix x y = col y := rfl

theorem single_pixel_smear_width (p : Pixel) (s : ℕ) :
    (single_pixel_smear p s).width = s := rfl

theorem single_pixel_smear_height (p : Pixel) (s : ℕ) :
    (single_pixel_smear p s).height = s := rfl

theorem single_pixel_smear_pix (p : Pixel) (s x y : ℕ) :
    (single_pixel_smear p s).pix x y = p := rfl

theorem flip_top_bottom_width (img : RasterImage) :
    (flip_top_bottom img).width = img.width := rfl

theorem flip_top_bottom_height (img : RasterImage) :
    (flip_top_bottom img).height = img.height := rfl

theorem flip_top_bottom_pix (img : RasterImage) (x y : ℕ) :
    (flip_top_bottom img).pix x y = img.pix x (img.height - 1 - y) := rfl

theorem flip_left_right_width (img : RasterImage) :
    (flip_left_right img).width = img.width := rfl

theorem flip_left_right_height (img : RasterImage) :
    (flip_left_right img).height = img.height := rfl

theorem flip_left_right_pix (img : RasterImage) (x y : ℕ) :
    (flip_left_right img).pix x y = img.pix (img.width - 1 - x) y := rfl

/-- C10: rotate_left and rotate_right each swap the dimensions and are
mutually inverse, pixel-for-pixel. -/
theorem c10_rotate_inverse (image : RasterImage) :
    (rotate_left image).width = image.height ∧
    (rotate_left image).height = image.width ∧
    (rotate_right image).width = image.height ∧
    (rotate_right image).height = image.width ∧
    imgEq (rotate_right (rotate_left image)) image ∧
    imgEq (rotate_left (rotate_right image)) image := by
  refine ⟨rfl, rfl, rfl, rfl, ⟨rfl, rfl, ?_⟩, ⟨rfl, rfl, ?_⟩⟩
  · intro x hx y hy
    simp only [rotate_left, rotate_right] at hx hy ⊢
    exact pix_congr image (by omega) rfl
  · intro x hx y hy
    simp only [rotate_left, rotate_right] at hx hy ⊢
    exact pix_congr image rfl (by omega)

/-- C10 witness: the inverse law evaluated on the concrete 3×2 test image. -/
theorem c10_witness :
    imgEq (rotate_right (rotate_left testImg)) testImg ∧
    imgEq (rotate_left (rotate_right testImg)) testImg :=
  ⟨(c10_rotate_inverse testImg).2.2.2.2.1, (c10_rotate_inverse testImg).2.2.2.2.2⟩

set_option maxHeartbeats 1600000

theorem BLEED_SIZE_spec : BLEED_SIZE = inch_to_pixel (1 / 10) := by
  norm_num [BLEED_SIZE, inch_to_pixel, DPI]
  decide

theorem CUT_LINE_LENGTH_spec : CUT_LINE_LENGTH = inch_to_pixel 1 := by
  norm_num [CUT_LINE_LENGTH, inch_to_pixel, DPI]
  decide

theorem TARGET_WIDTH_spec : TARGET_WIDTH = inch_to_pixel (17 / 2) := by
  norm_num [TARGET_WIDTH, inch_to_pixel, DPI]
  decide

theorem TARGET_HEIGHT_spec : TARGET_HEIGHT = inch_to_pixel 11 := by
  norm_num [TARGET_HEIGHT, inch_to_pixel, DPI]
  decide

theorem tdiv_coe (n : ℕ) : Int.tdiv (n : ℤ) 2 = ((n / 2 : ℕ) : ℤ) := rfl


theorem paste_pix_in (base img : RasterImage) (px py : ℤ) (x y : ℕ)
    (h : px ≤ (x : ℤ) ∧ (x : ℤ) < px + img.width ∧
      py ≤ (y : ℤ) ∧ (y : ℤ) < py + img.height) :
    (paste base img px py).pix x y =
      img.pix ((x : ℤ) - px).toNat ((y : ℤ) - py).toNat := by
  rw [paste_pix, if_pos h]

theorem paste_pix_out (base img : RasterImage) (px py : ℤ) (x y : ℕ)
    (h : ¬(px ≤ (x : ℤ) ∧ (x : ℤ) < px + img.width ∧
      py ≤ (y : ℤ) ∧ (y : ℤ) < py + img.height)) :
    (paste base img px py).pix x y = base.pix x y := by
  rw [paste_pix, if_neg h]

/-- Outside all four corner squares actually pasted by add_corner_bleed, the
underlying image is untouched. -/
theorem add_corner_bleed_pix_out (image bi : RasterImage) (b x y : ℕ)
    (hTL : ¬(b - b / 2 ≤ x ∧ x < b ∧ b - b / 2 ≤ y ∧ y < b))
    (hTR : ¬(image.width + b ≤ x ∧ x < image.width + b + b / 2 ∧
      b - b / 2 ≤ y ∧ y < b))
    (hBL : ¬(b - b / 2 ≤ x ∧ x < b ∧ image.height + b ≤ y ∧
      y < image.height + b + b / 2))
    (hBR : ¬(image.width + b ≤ x ∧ x < image.width + b + b / 2 ∧
      image.height + b ≤ y ∧ y < image.height + b + b / 2)) :
    (add_corner_bleed image bi b).pix x y = bi.pix x y := by
  simp only [add_corner_bleed, paste_pix, single_pixel_smear_width,
    single_pixel_smear_height]
  split_ifs <;> first | rfl | (exfalso; omega)

/-- Inside the half-bleed square pasted at the top-left corner, the value is
the top-left pixel of the source. -/
theorem add_corner_bleed_pix_tl (image bi : RasterImage) (b x y : ℕ)
    (h : b - b / 2 ≤ x ∧ x < b ∧ b - b / 2 ≤ y ∧ y < b) :
    (add_corner_bleed image bi b).pix x y = image.pix 0 0 := by
  simp only [add_corner_bleed, paste_pix, single_pixel_smear_width,
    single_pixel_smear_height, single_pixel_smear_pix]
  split_ifs <;> first | rfl | (exfalso; omega)

/-- Inside the half-bleed square pasted at the top-right corner, the value is
the top-right pixel of the source. -/
theorem add_corner_bleed_pix_tr (image bi : RasterImage) (b x y : ℕ)
    (h : image.width + b ≤ x ∧ x < image.width + b + b / 2 ∧
      b - b / 2 ≤ y ∧ y < b) :
    (add_corner_bleed image bi b).pix x y = image.pix (image.width - 1) 0 := by
  simp only [add_corner_bleed, paste_pix, single_pixel_smear_width,
    single_pixel_smear_height, single_pixel_smear_pix]
  split_ifs <;> first | rfl | (exfalso; omega)

/-- Inside the half-bleed square pasted at the bottom-left corner, the value
is the bottom-left pixel of the source. -/
theorem add_corner_bleed_pix_bl (image bi : RasterImage) (b x y : ℕ)
    (h : b - b / 2 ≤ x ∧ x < b ∧ image.height + b ≤ y ∧
      y < image.height + b + b / 2) :
    (add_corner_bleed image bi b).pix x y =
      image.pix 0 (image.height - 1) := by
  simp only [add_corner_bleed, paste_pix, single_pixel_smear_width,
    single_pixel_smear_height, single_pixel_smear_pix]
  split_ifs <;> first | rfl | (exfalso; omega)

/-- Inside the half-bleed square pasted at the bottom-right corner, the value
is the bottom-right pixel of the source. -/
theorem add_corner_bleed_pix_br (image bi : RasterImage) (b x y : ℕ)
    (h : image.width + b ≤ x ∧ x < image.width + b + b / 2 ∧
      image.height + b ≤ y ∧ y < image.height + b + b / 2) :
    (add_corner_bleed image bi b).pix x y =
      image.pix (image.width - 1) (image.height - 1) := by
  simp only [add_corner_bleed, paste_pix, single_pixel_smear_width,
    single_pixel_smear_height, single_pixel_smear_pix]
  split_ifs <;> first | rfl | (exfalso; omega)

/-- add_bleed_smear unfolded to its paste chain (definitional). -/
theorem add_bleed_smear_def (image : RasterImage) (b : ℕ) :
    add_bleed_smear image b =
      add_corner_bleed image
        (paste
          (paste
            (paste
              (paste
                (paste
                  (newImage (image.width + 2 * b) (image.height + 2 * b)
                    PAD_COLOR)
                  image b b)
                (smear_axis0 (fun x => image.pix x 0) image.width b) b 0)
              (smear_axis0 (fun x => image.pix x (image.height - 1))
                image.width b)
              b ((image.height : ℤ) + b))
            (smear_axis1 (fun y => image.pix 0 y) image.height b) 0 b)
          (smear_axis1 (fun y => image.pix (image.width - 1) y) image.height b)
          ((image.width : ℤ) + b) b)
        b := rfl

/-- add_bleed_flip unfolded to its paste chain (definitional). -/
theorem add_bleed_flip_def (image : RasterImage) (b : ℕ) :
    add_bleed_flip image b =
      add_corner_bleed image
        (paste
          (paste
            (paste
              (paste
                (paste
                  (newImage (image.width + 2 * b) (image.height + 2 * b)
                    PAD_COLOR)
                  image b b)
                (flip_top_bottom (crop image 0 0 image.width b)) b 0)
              (flip_top_bottom
                (crop image 0 ((image.height : ℤ) - b) image.width
                  image.height))
              b ((image.height : ℤ) + b))
            (flip_left_right (crop image 0 0 b image.height)) 0 b)
          (flip_left_right
            (crop image ((image.width : ℤ) - b) 0 image.width image.height))
          ((image.width : ℤ) + b) b)
        b := rfl

/-- C9: with bleedSize 0 both bleed modes return the input unchanged, same
size and pixel-for-pixel (the identity transform). -/
theorem c9_bleed_zero_identity (image : RasterImage)
    (hw : 0 < image.width) (hh : 0 < image.height) :
    imgEq (add_bleed_smear image 0) image ∧
    imgEq (add_bleed_flip image 0) image := by
  constructor
  · refine ⟨?_, ?_, ?_⟩
    · show image.width + 2 * 0 = image.width
      omega
    · show image.height + 2 * 0 = image.height
      omega
    intro x hx y hy
    have hx' : x < image.width + 2 * 0 := hx
    have hy' : y < image.height + 2 * 0 := hy
    clear hx hy
    rw [add_bleed_smear_def, add_corner_bleed_pix_out, paste_pix_out,
      paste_pix_out, paste_pix_out, paste_pix_out, paste_pix_in]
    · exact pix_congr image (by omega) (by omega)
    all_goals try simp only [paste_width, paste_height, newImage_width,
      newImage_height, smear_axis0_width, smear_axis0_height,
      smear_axis1_width, smear_axis1_height, crop_width, crop_height,
      flip_top_bottom_width, flip_top_bottom_height, flip_left_right_width,
      flip_left_right_height]
    all_goals omega
  · refine ⟨?_, ?_, ?_⟩
    · show image.width + 2 * 0 = image.width
      omega
    · show image.height + 2 * 0 = image.height
      omega
    intro x hx y hy
    have hx' : x < image.width + 2 * 0 := hx
    have hy' : y < image.height + 2 * 0 := hy
    clear hx hy
    rw [add_bleed_flip_def, add_corner_bleed_pix_out, paste_pix_out,
      paste_pix_out, paste_pix_out, paste_pix_out, paste_pix_in]
    · exact pix_congr image (by omega) (by omega)
    all_goals try simp only [paste_width, paste_height, newImage_width,
      newImage_height, smear_axis0_width, smear_axis0_height,
      smear_axis1_width, smear_axis1_height, crop_width, crop_height,
      flip_top_bottom_width, flip_top_bottom_height, flip_left_right_width,
      flip_left_right_height]
    all_goals omega

/-- C9 witness: identity at bleedSize 0 on the concrete 3×2 test image. -/
theorem c9_witness :
    imgEq (add_bleed_smear testImg 0) testImg ∧
    imgEq (add_bleed_flip testImg 0) testImg :=
  c9_bleed_zero_identity testImg (by decide) (by decide)

/-- C1: for every image and even bleedSize `b`, both bleed modes return an
image of size `(w + 2b, h + 2b)` whose central `w × h` region at offset
`(b, b)` is pixel-for-pixel the input. -/
theorem c1_bleed_dimensions_center (image : RasterImage) (b : ℕ)
    (hw : 0 < image.width) (hh : 0 < image.height) (hb : Even b) :
    (add_bleed_smear image b).width = image.width + 2 * b ∧
    (add_bleed_smear image b).height = image.height + 2 * b ∧
    (add_bleed_flip image b).width = image.width + 2 * b ∧
    (add_bleed_flip image b).height = image.height + 2 * b ∧
    (∀ x < image.width, ∀ y < image.height,
      (add_bleed_smear image b).pix (b + x) (b + y) = image.pix x y) ∧
    (∀ x < image.width, ∀ y < image.height,
      (add_bleed_flip image b).pix (b + x) (b + y) = image.pix x y) := by
  refine ⟨rfl, rfl, rfl, rfl, ?_, ?_⟩
  · intro x hx y hy
    rw [add_bleed_smear_def, add_corner_bleed_pix_out, paste_pix_out,
      paste_pix_out, paste_pix_out, paste_pix_out, paste_pix_in]
    · exact pix_congr image (by omega) (by omega)
    all_goals try simp only [paste_width, paste_height, newImage_width,
      newImage_height, smear_axis0_width, smear_axis0_height,
      smear_axis1_width, smear_axis1_height, crop_width, crop_height,
      flip_top_bottom_width, flip_top_bottom_height, flip_left_right_width,
      flip_left_right_height]
    all_goals omega
  · intro x hx y hy
    rw [add_bleed_flip_def, add_corner_bleed_pix_out, paste_pix_out,
      paste_pix_out, paste_pix_out, paste_pix_out, paste_pix_in]
    · exact pix_congr image (by omega) (by omega)
    all_goals try simp only [paste_width, paste_height, newImage_width,
      newImage_height, smear_axis0_width, smear_axis0_height,
      smear_axis1_width, smear_axis1_height, crop_width, crop_height,
      flip_top_bottom_width, flip_top_bottom_height, flip_left_right_width,
      flip_left_right_height]
    all_goals omega

/-- C1 witness: size and central-region preservation at the concrete 3×2 test
image with bleedSize 2, sampled at pixel (1, 0). -/
theorem c1_witness :
    (add_bleed_smear testImg 2).width = testImg.width + 2 * 2 ∧
    (add_bleed_flip testImg 2).height = testImg.height + 2 * 2 ∧
    (add_bleed_smear testImg 2).pix (2 + 1) (2 + 0) = testImg.pix 1 0 ∧
    (add_bleed_flip testImg 2).pix (2 + 1) (2 + 0) = testImg.pix 1 0 :=
  ⟨(c1_bleed_dimensions_center testImg 2 (by decide) (by decide)
      (by decide)).1,
   (c1_bleed_dimensions_center testImg 2 (by decide) (by decide)
      (by decide)).2.2.2.1,
   (c1_bleed_dimensions_center testImg 2 (by decide) (by decide)
      (by decide)).2.2.2.2.1 1 (by decide) 0 (by decide),
   (c1_bleed_dimensions_center testImg 2 (by decide) (by decide)
      (by decide)).2.2.2.2.2 1 (by decide) 0 (by decide)⟩

/-- C2 counterexample: a 4×4 image, every pixel (5, 6, 7, 8), with
bleedSize 2.  The claim asserts every corner margin square is entirely filled
with the corner pixel, but the outermost corner pixel (0, 0) of the smear
output is the transparent pad color, not the corner pixel. -/
theorem c2_counterexample :
    (add_bleed_smear img4 2).pix 0 0 = PAD_COLOR ∧
    img4.pix 0 0 = (5, 6, 7, 8) ∧
    (add_bleed_smear img4 2).pix 0 0 ≠ img4.pix 0 0 := by decide

/-- C2 amended: in Smear mode with even bleedSize `b > 0`, every pixel of the
four edge margins replicates the corresponding outermost edge pixel of the
source, exactly as claimed; but each `b × b` corner margin square is NOT
entirely filled with the corner pixel: only its `b/2 × b/2` quadrant adjacent
to the pasted image corner is (pasted at offset `b - b/2` from the corner
square's inner edges), and every other pixel of the corner square keeps the
transparent pad color. -/
theorem c2_smear_margins_amended (image : RasterImage) (b : ℕ)
    (hw : 0 < image.width) (hh : 0 < image.height) (hb : Even b)
    (hbpos : 0 < b) :
    (∀ x < image.width, ∀ r < b,
      (add_bleed_smear image b).pix (b + x) r = image.pix x 0) ∧
    (∀ x < image.width, ∀ r < b,
      (add_bleed_smear image b).pix (b + x) (image.height + b + r) =
        image.pix x (image.height - 1)) ∧
    (∀ y < image.height, ∀ r < b,
      (add_bleed_smear image b).pix r (b + y) = image.pix 0 y) ∧
    (∀ y < image.height, ∀ r < b,
      (add_bleed_smear image b).pix (image.width + b + r) (b + y) =
        image.pix (image.width - 1) y) ∧
    (∀ u < b / 2, ∀ v < b / 2,
      (add_bleed_smear image b).pix (b - b / 2 + u) (b - b / 2 + v) =
        image.pix 0 0) ∧
    (∀ u < b / 2, ∀ v < b / 2,
      (add_bleed_smear image b).pix (image.width + b + u) (b - b / 2 + v) =
        image.pix (image.width - 1) 0) ∧
    (∀ u < b / 2, ∀ v < b / 2,
      (add_bleed_smear image b).pix (b - b / 2 + u) (image.height + b + v) =
        image.pix 0 (image.height - 1)) ∧
    (∀ u < b / 2, ∀ v < b / 2,
      (add_bleed_smear image b).pix (image.width + b + u)
          (image.height + b + v) =
        image.pix (image.width - 1) (image.height - 1)) ∧
    (∀ u < b, ∀ v < b, ¬(b - b / 2 ≤ u ∧ b - b / 2 ≤ v) →
      (add_bleed_smear image b).pix u v = PAD_COLOR) ∧
    (∀ u < b, ∀ v < b, ¬(u < b / 2 ∧ b - b / 2 ≤ v) →
      (add_bleed_smear image b).pix (image.width + b + u) v = PAD_COLOR) ∧
    (∀ u < b, ∀ v < b, ¬(b - b / 2 ≤ u ∧ v < b / 2) →
      (add_bleed_smear image b).pix u (image.height + b + v) = PAD_COLOR) ∧
    (∀ u < b, ∀ v < b, ¬(u < b / 2 ∧ v < b / 2) →
      (add_bleed_smear image b).pix (image.width + b + u)
        (image.height + b + v) = PAD_COLOR) := by
  refine ⟨?_, ?_, ?_, ?_, ?_, ?_, ?_, ?_, ?_, ?_, ?_, ?_⟩
  · intro x hx r hr
    rw [add_bleed_smear_def, add_corner_bleed_pix_out, paste_pix_out,
      paste_pix_out, paste_pix_out, paste_pix_in]
    · simp only [smear_axis0_pix]
      exact pix_congr image (by omega) rfl
    all_goals try simp only [paste_width, paste_height, newImage_width,
      newImage_height, smear_axis0_width, smear_axis0_height,
      smear_axis1_width, smear_axis1_height]
    all_goals omega
  · intro x hx r hr
    rw [add_bleed_smear_def, add_corner_bleed_pix_out, paste_pix_out,
      paste_pix_out, paste_pix_in]
    · simp only [smear_axis0_pix]
      exact pix_congr image (by omega) rfl
    all_goals try simp only [paste_width, paste_height, newImage_width,
      newImage_height, smear_axis0_width, smear_axis0_height,
      smear_axis1_width, smear_axis1_height]
    all_goals omega
  · intro y hy r hr
    rw [add_bleed_smear_def, add_corner_bleed_pix_out, paste_pix_out,
      paste_pix_in]
    · simp only [smear_axis1_pix]
      exact pix_congr image rfl (by omega)
    all_goals try simp only [paste_width, paste_height, newImage_width,
      newImage_height, smear_axis0_width, smear_axis0_height,
      smear_axis1_width, smear_axis1_height]
    all_goals omega
  · intro y hy r hr
    rw [add_bleed_smear_def, add_corner_bleed_pix_out, paste_pix_in]
    · simp only [smear_axis1_pix]
      exact pix_congr image rfl (by omega)
    all_goals try simp only [paste_width, paste_height, newImage_width,
      newImage_height, smear_axis0_width, smear_axis0_height,
      smear_axis1_width, smear_axis1_height]
    all_goals omega
  · intro u hu v hv
    rw [add_bleed_smear_def, add_corner_bleed_pix_tl]
    omega
  · intro u hu v hv
    rw [add_bleed_smear_def, add_corner_bleed_pix_tr]
    omega
  · intro u hu v hv
    rw [add_bleed_smear_def, add_corner_bleed_pix_bl]
    omega
  · intro u hu v hv
    rw [add_bleed_smear_def, add_corner_bleed_pix_br]
    omega
  · intro u hu v hv hgap
    rw [add_bleed_smear_def, add_corner_bleed_pix_out, paste_pix_out,
      paste_pix_out, paste_pix_out, paste_pix_out, paste_pix_out]
    · rfl
    all_goals try simp only [paste_width, paste_height, newImage_width,
      newImage_height, smear_axis0_width, smear_axis0_height,
      smear_axis1_width, smear_axis1_height]
    all_goals omega
  · intro u hu v hv hgap
    rw [add_bleed_smear_def, add_corner_bleed_pix_out, paste_pix_out,
      paste_pix_out, paste_pix_out, paste_pix_out, paste_pix_out]
    · rfl
    all_goals try simp only [paste_width, paste_height, newImage_width,
      newImage_height, smear_axis0_width, smear_axis0_height,
      smear_axis1_width, smear_axis1_height]
    all_goals omega
  · intro u hu v hv hgap
    rw [add_bleed_smear_def, add_corner_bleed_pix_out, paste_pix_out,
      paste_pix_out, paste_pix_out, paste_pix_out, paste_pix_out]
    · rfl
    all_goals try simp only [paste_width, paste_height, newImage_width,
      newImage_height, smear_axis0_width, smear_axis0_height,
      smear_axis1_width, smear_axis1_height]
    all_goals omega
  · intro u hu v hv hgap
    rw [add_bleed_smear_def, add_corner_bleed_pix_out, paste_pix_out,
      paste_pix_out, paste_pix_out, paste_pix_out, paste_pix_out]
    · rfl
    all_goals try simp only [paste_width, paste_height, newImage_width,
      newImage_height, smear_axis0_width, smear_axis0_height,
      smear_axis1_width, smear_axis1_height]
    all_goals omega

/-- C2 witness: the amended claim evaluated on the concrete 3×2 test image
with bleedSize 2: a top-margin pixel replicates the top edge, and the
outermost corner pixel of the corner square is the pad color. -/
theorem c2_witness :
    (add_bleed_smear testImg 2).pix (2 + 1) 0 = testImg.pix 1 0 ∧
    (add_bleed_smear testImg 2).pix 0 0 = PAD_COLOR :=
  ⟨(c2_smear_margins_amended testImg 2 (by decide) (by decide) (by decide)
      (by decide)).1 1 (by decide) 0 (by decide),
   (c2_smear_margins_amended testImg 2 (by decide) (by decide) (by decide)
      (by decide)).2.2.2.2.2.2.2.2.1 0 (by decide) 0 (by decide) (by decide)⟩

/-- C3: in Flip mode the corner squares are NOT completely covered, contrary
to the claim (and to the no-gap requirement in the specification): on a 4×4
image, every pixel (5, 6, 7, 8), with bleedSize 2, the corner fill pastes a
single 1×1 half-bleed block adjacent to the pasted image corner, and the
remaining pixels of the 2×2 corner square keep the transparent pad color —
pixels (0,0), (1,0) and (0,1) of the output are padding-colored, a gap the
claim says cannot exist. -/
theorem c3_flip_corner_gap :
    (add_bleed_flip img4 2).pix 0 0 = PAD_COLOR ∧
    (add_bleed_flip img4 2).pix 1 0 = PAD_COLOR ∧
    (add_bleed_flip img4 2).pix 0 1 = PAD_COLOR ∧
    (add_bleed_flip img4 2).pix 1 1 = (5, 6, 7, 8) := by decide

/-- add_cut_lines unfolded to its paste chain (definitional): base canvas,
pasted bled image, then the four vertical and four horizontal marks in source
order. -/
theorem add_cut_lines_def (image : RasterImage) (b L : ℕ) :
    add_cut_lines image b L =
      paste
        (paste
          (paste
            (paste
              (paste
                (paste
                  (paste
                    (paste
                      (paste
                        (newImage (image.width + 2 * L)
                          (image.height + 2 * L) PAD_COLOR)
                        image L L)
                      (newImage 2 L CUT_LINES_COLOR)
                      (((CUT_LINE_OFFSET : ℤ) - 1) + L + b)
                      ((-((b : ℤ) + L)) + L + b))
                    (newImage 2 L CUT_LINES_COLOR)
                    ((((image.width : ℤ) - 2 * b) - 1 - CUT_LINE_OFFSET) +
                      L + b)
                    ((-((b : ℤ) + L)) + L + b))
                  (newImage 2 L CUT_LINES_COLOR)
                  (((CUT_LINE_OFFSET : ℤ) - 1) + L + b)
                  ((((image.height : ℤ) - 2 * b) + b) + L + b))
                (newImage 2 L CUT_LINES_COLOR)
                ((((image.width : ℤ) - 2 * b) - 1 - CUT_LINE_OFFSET) + L + b)
                ((((image.height : ℤ) - 2 * b) + b) + L + b))
              (newImage L 2 CUT_LINES_COLOR)
              ((-((b : ℤ) + L)) + L + b)
              (((CUT_LINE_OFFSET : ℤ) - 1) + L + b))
            (newImage L 2 CUT_LINES_COLOR)
            ((-((b : ℤ) + L)) + L + b)
            ((((image.height : ℤ) - 2 * b) - 1 - CUT_LINE_OFFSET) + L + b))
          (newImage L 2 CUT_LINES_COLOR)
          ((((image.width : ℤ) - 2 * b) + b) + L + b)
          (((CUT_LINE_OFFSET : ℤ) - 1) + L + b))
        (newImage L 2 CUT_LINES_COLOR)
        ((((image.width : ℤ) - 2 * b) + b) + L + b)
        ((((image.height : ℤ) - 2 * b) - 1 - CUT_LINE_OFFSET) + L + b) := rfl

theorem ite_eq_of_both {c : Prop} [Decidable c] {a b t : Pixel}
    (ha : a = t) (hb : b = t) : (if c then a else b) = t := by
  split_ifs <;> assumption

theorem ite_disj {c : Prop} [Decidable c] {a b p r : Pixel} (ha : a = r)
    (hb : b = p ∨ b = r) :
    (if c then a else b) = p ∨ (if c then a else b) = r := by
  split_ifs
  · exact Or.inr ha
  · exact hb

/-- C5: add_cut_lines returns a canvas enlarged by `lineLength` on each side
with the input pasted at `(lineLength, lineLength)` pixel-for-pixel unchanged
(in particular no pixel of the original-image rectangle inside it changes),
and every pixel outside the pasted input — the newly added margin — is either
the transparent pad color or the opaque-red mark color, so all mark pixels lie
in the new margin. -/
theorem c5_cut_lines_preserve (image : RasterImage) (b L : ℕ) (hL : 0 < L) :
    (add_cut_lines image b L).width = image.width + 2 * L ∧
    (add_cut_lines image b L).height = image.height + 2 * L ∧
    (∀ x < image.width, ∀ y < image.height,
      (add_cut_lines image b L).pix (L + x) (L + y) = image.pix x y) ∧
    (∀ X, X < image.width + 2 * L → ∀ Y, Y < image.height + 2 * L →
      ¬(L ≤ X ∧ X < image.width + L ∧ L ≤ Y ∧ Y < image.height + L) →
      (add_cut_lines image b L).pix X Y = PAD_COLOR ∨
        (add_cut_lines image b L).pix X Y = CUT_LINES_COLOR) := by
  refine ⟨rfl, rfl, ?_, ?_⟩
  · intro x hx y hy
    rw [add_cut_lines_def, paste_pix_out, paste_pix_out, paste_pix_out,
      paste_pix_out, paste_pix_out, paste_pix_out, paste_pix_out,
      paste_pix_out, paste_pix_in]
    · exact pix_congr image (by omega) (by omega)
    all_goals try simp only [paste_width, paste_height, newImage_width,
      newImage_height]
    all_goals omega
  · intro X hX Y hY hout
    simp only [add_cut_lines_def, paste_pix, newImage_width, newImage_height,
      newImage_pix]
    refine ite_disj rfl (ite_disj rfl (ite_disj rfl (ite_disj rfl
      (ite_disj rfl (ite_disj rfl (ite_disj rfl (ite_disj rfl ?_)))))))
    rw [if_neg]
    · exact Or.inl rfl
    · intro hc
      exact hout (by omega)

/-- C5 witness: at the concrete 3×2 test image with bleedSize 5 and
lineLength 1, the pixel pasted at (1+1, 1+0) is the source pixel (1, 0). -/
theorem c5_witness :
    (add_cut_lines testImg 5 1).pix (1 + 1) (1 + 0) = testImg.pix 1 0 :=
  (c5_cut_lines_preserve testImg 5 1 (by decide)).2.2.1 1 (by decide) 0
    (by decide)

/-- C6: every canvas pixel of add_cut_lines is characterized by the eight
mark rectangles of the claim: pixels inside one of the eight rectangles (the
claimed relative offsets mapped by `(x, y) -> (x + L + b, y + L + b)`) are
opaque red, pixels of the pasted bled image are the input's, and all other
pixels are the transparent pad color. -/
theorem c6_cut_marks_characterization (image : RasterImage) (b L X Y : ℕ)
    (hX : X < image.width + 2 * L) (hY : Y < image.height + 2 * L) :
    (in_cut_marks image.width image.height b L X Y →
      (add_cut_lines image b L).pix X Y = CUT_LINES_COLOR) ∧
    (¬in_cut_marks image.width image.height b L X Y →
      (L ≤ X ∧ X < image.width + L ∧ L ≤ Y ∧ Y < image.height + L) →
      (add_cut_lines image b L).pix X Y = image.pix (X - L) (Y - L)) ∧
    (¬in_cut_marks image.width image.height b L X Y →
      ¬(L ≤ X ∧ X < image.width + L ∧ L ≤ Y ∧ Y < image.height + L) →
      (add_cut_lines image b L).pix X Y = PAD_COLOR) := by
  refine ⟨?_, ?_, ?_⟩
  · intro hM
    simp only [in_cut_marks] at hM
    simp only [add_cut_lines_def, paste_pix, newImage_width, newImage_height,
      newImage_pix]
    rcases hM with m | m | m | m | m | m | m | m
    · refine ite_eq_of_both rfl ?_
      refine ite_eq_of_both rfl ?_
      refine ite_eq_of_both rfl ?_
      refine ite_eq_of_both rfl ?_
      refine ite_eq_of_both rfl ?_
      refine ite_eq_of_both rfl ?_
      refine ite_eq_of_both rfl ?_
      rw [if_pos]
      omega
    · refine ite_eq_of_both rfl ?_
      refine ite_eq_of_both rfl ?_
      refine ite_eq_of_both rfl ?_
      refine ite_eq_of_both rfl ?_
      refine ite_eq_of_both rfl ?_
      refine ite_eq_of_both rfl ?_
      rw [if_pos]
      omega
    · refine ite_eq_of_both rfl ?_
      refine ite_eq_of_both rfl ?_
      refine ite_eq_of_both rfl ?_
      refine ite_eq_of_both rfl ?_
      refine ite_eq_of_both rfl ?_
      rw [if_pos]
      omega
    · refine ite_eq_of_both rfl ?_
      refine ite_eq_of_both rfl ?_
      refine ite_eq_of_both rfl ?_
      refine ite_eq_of_both rfl ?_
      rw [if_pos]
      omega
    · refine ite_eq_of_both rfl ?_
      refine ite_eq_of_both rfl ?_
      refine ite_eq_of_both rfl ?_
      rw [if_pos]
      omega
    · refine ite_eq_of_both rfl ?_
      refine ite_eq_of_both rfl ?_
      rw [if_pos]
      omega
    · refine ite_eq_of_both rfl ?_
      rw [if_pos]
      omega
    · rw [if_pos]
      omega
  · intro hM hreg
    simp only [add_cut_lines_def, paste_pix, newImage_width, newImage_height,
      newImage_pix]
    rw [if_neg, if_neg, if_neg, if_neg, if_neg, if_neg, if_neg, if_neg,
      if_pos]
    · exact pix_congr image (by omega) (by omega)
    all_goals first
      | omega
      | (intro hc
         refine hM ?_
         simp only [in_cut_marks]
         omega)
  · intro hM hreg
    simp only [add_cut_lines_def, paste_pix, newImage_width, newImage_height,
      newImage_pix]
    rw [if_neg, if_neg, if_neg, if_neg, if_neg, if_neg, if_neg, if_neg,
      if_neg]
    all_goals first
      | (intro hc
         exact hreg (by omega))
      | (intro hc
         refine hM ?_
         simp only [in_cut_marks]
         omega)

/-- C6 witness: on the concrete 1×1 test image with bleedSize 0 and
lineLength 2, pixel (3, 0) lies in the first top vertical mark rectangle and
is opaque red. -/
theorem c6_witness :
    (add_cut_lines img1 0 2).pix 3 0 = CUT_LINES_COLOR :=
  (c6_cut_marks_characterization img1 0 2 3 0 (by decide) (by decide)).1
    (by decide)

/-- C4 counterexample: two 1×1 images, bleedSize 0, rotate_left.  Each
bled + rotated + cut-lined image has height 601, so the claim predicts sheet
height 601 + 601 - 300 = 902, but bleed_stack_cut crops lineLength off the
second image AND subtracts lineLength again, producing height 602. -/
theorem c4_counterexample :
    (add_cut_lines (rotate_left (add_bleed img1 0)) 0 CUT_LINE_LENGTH).height
      = 601 ∧
    (bleed_stack_cut img1 img1 0 rotate_left).height = 602 ∧
    (bleed_stack_cut img1 img1 0 rotate_left).height ≠ 601 + 601 - 300 := by
  refine ⟨rfl, rfl, ?_⟩
  decide

/-- C4 amended: the sheet produced by bleed_stack_cut has width
`max w1 w2` as claimed, but height `h1 + h2 - 2·lineLength` (not
`h1 + h2 - lineLength`), where `(w1, h1)` and `(w2, h2)` are the sizes of the
two bled + rotated + cut-lined images: the top `lineLength` rows of the second
image are cropped away and `lineLength` is subtracted once more from the sum
of the remaining heights. -/
theorem c4_stack_size_amended (image_1 image_2 : RasterImage) (b : ℕ)
    (rotator : RasterImage → RasterImage) :
    (bleed_stack_cut image_1 image_2 b rotator).height =
      (add_cut_lines (rotator (add_bleed image_1 b)) b
          CUT_LINE_LENGTH).height +
        (add_cut_lines (rotator (add_bleed image_2 b)) b
          CUT_LINE_LENGTH).height -
        2 * CUT_LINE_LENGTH ∧
    (bleed_stack_cut image_1 image_2 b rotator).width =
      max
        (add_cut_lines (rotator (add_bleed image_1 b)) b
          CUT_LINE_LENGTH).width
        (add_cut_lines (rotator (add_bleed image_2 b)) b
          CUT_LINE_LENGTH).width := by
  constructor
  · simp only [bleed_stack_cut, add_cut_lines_def, paste_height,
      newImage_height, crop_height, paste_width, newImage_width, crop_width]
    omega
  · simp only [bleed_stack_cut, add_cut_lines_def, paste_height,
      newImage_height, crop_height, paste_width, newImage_width, crop_width]
    omega

/-- C7 counterexample: a 2×2 sheet, every pixel (9, 9, 9, 9), cropped to
target 4×4.  The claim says this must fail with InvalidArgument; instead the
code returns a 4×4 image whose out-of-range pixels are silently zero-filled
(pixel (0, 0) is (0, 0, 0, 0)) while in-range pixels come from the sheet. -/
theorem c7_counterexample :
    sheet2.width < 4 ∧ sheet2.height < 4 ∧
    (crop_to_target sheet2 4 4).width = 4 ∧
    (crop_to_target sheet2 4 4).height = 4 ∧
    (crop_to_target sheet2 4 4).pix 0 0 = (0, 0, 0, 0) ∧
    (crop_to_target sheet2 4 4).pix 1 1 = (9, 9, 9, 9) := by decide

/-- C7 amended: crop_to_target never fails: for any sheet and target it
returns an image of exactly the target size; when the target fits inside the
sheet the result is the centered window at offset
`(⌊(W - tw)/2⌋, ⌊(H - th)/2⌋)` pixel-for-pixel (the Python `int()` truncation
agrees with the floor there); when the target exceeds the sheet the
out-of-range pixels are zero-filled rather than an InvalidArgument failure
being raised. -/
theorem c7_crop_amended (sheet : RasterImage) (tw th : ℕ) :
    (crop_to_target sheet tw th).width = tw ∧
    (crop_to_target sheet tw th).height = th ∧
    (tw ≤ sheet.width → th ≤ sheet.height →
      ∀ x < tw, ∀ y < th,
        (crop_to_target sheet tw th).pix x y =
          sheet.pix ((sheet.width - tw) / 2 + x)
            ((sheet.height - th) / 2 + y)) := by
  refine ⟨?_, ?_, ?_⟩
  · simp only [crop_to_target, crop_width]
    omega
  · simp only [crop_to_target, crop_height]
    omega
  · intro htw hth x hx y hy
    have h1 : (sheet.width : ℤ) - tw = ((sheet.width - tw : ℕ) : ℤ) := by
      omega
    have h2 : (sheet.height : ℤ) - th = ((sheet.height - th : ℕ) : ℤ) := by
      omega
    simp only [crop_to_target, crop_pix, h1, h2, tdiv_coe]
    rw [if_pos]
    · exact pix_congr sheet (by omega) (by omega)
    · omega

/-- C7 witness: centered crop of the concrete 4×4 test image to 2×2; the
offset is ((4-2)/2, (4-2)/2) = (1, 1). -/
theorem c7_witness :
    (crop_to_target img4 2 2).pix 0 0 =
      img4.pix ((img4.width - 2) / 2 + 0) ((img4.height - 2) / 2 + 0) :=
  (c7_crop_amended img4 2 2).2.2 (by decide) (by decide) 0 (by decide) 0
    (by decide)

/-- C8 counterexample: bleedSize 1 is odd, yet neither bleed mode fails: both
return an ordinary 3×3 image around the 1×1 input (the paste positions use
`half_bleed = int(1/2) = 0`). -/
theorem c8_counterexample :
    (add_bleed_smear img1 1).width = 3 ∧
    (add_bleed_smear img1 1).height = 3 ∧
    (add_bleed_flip img1 1).width = 3 ∧
    (add_bleed_flip img1 1).height = 3 ∧
    (add_bleed_smear img1 1).pix 1 1 = (1, 2, 3, 4) ∧
    (add_bleed_flip img1 1).pix 1 1 = (1, 2, 3, 4) := by decide

/-- C8 amended: the bleed operation has no error path at all: for every
bleedSize, odd ones included, both modes return an image of size
`(w + 2b, h + 2b)`, processing odd sizes with `half_bleed = ⌊b/2⌋` instead of
rejecting them with InvalidArgument. -/
theorem c8_no_error_amended (image : RasterImage) (b : ℕ) :
    (add_bleed_smear image b).width = image.width + 2 * b ∧
    (add_bleed_smear image b).height = image.height + 2 * b ∧
    (add_bleed_flip image b).width = image.width + 2 * b ∧
    (add_bleed_flip image b).height = image.height + 2 * b :=
  ⟨rfl, rfl, rfl, rfl⟩
